import Mathlib

/-!
Verification of the SnippingWidget OCR tool (src/snipping_tool.py).

The development shallowly embeds the image-preprocessing pipeline
(`MainWindow.preprocess_image`), the extraction flow (`MainWindow.extract_text`)
and the selection guard (`SnippingWidget.mouseReleaseEvent`).  Images are
modelled as dimensioned grids of natural-number intensities; machine floats in
the Pillow/numpy code are replaced by exact integer or rational arithmetic at
the points where the float computation is provably exact (each such point is
justified in a comment at the corresponding definition).
-/

/-- Grayscale conversion weight formula of Pillow, Convert.c: the `L24` macro
computes `r * 19595 + g * 38470 + b * 7471` and `rgb2l` shifts it right by 16
bits.  The three weights sum to 65536, so a uniform gray triple maps to its
common channel value. -/
def lum (p : Nat × Nat × Nat) : Nat :=
  (p.1 * 19595 + p.2.1 * 38470 + p.2.2 * 7471) / 65536

/-- A color raster: `pix x y` is the (r, g, b) triple at column `x`, row `y`.
Values at coordinates outside `width × height` are irrelevant junk; every
statement quantifies only over in-bounds coordinates. -/
structure RGBImage where
  width : Nat
  height : Nat
  pix : Nat → Nat → Nat × Nat × Nat

/-- A single-channel raster, as produced by `convert('L')` and by the later
pipeline stages. -/
structure GrayImage where
  width : Nat
  height : Nat
  pix : Nat → Nat → Nat

/-- Stage 1 of `preprocess_image`: `image.convert('L')`. -/
def toGray (img : RGBImage) : GrayImage :=
  ⟨img.width, img.height, fun x y => lum (img.pix x y)⟩

/-- Sum of all in-bounds pixel intensities; the integer sums computed by
`ImageStat.Stat` (from the histogram) and by `np.mean` are exact in float64
for any realistic pixel count, so this Nat sum is a faithful model. -/
def graySum (g : GrayImage) : Nat :=
  ∑ y ∈ Finset.range g.height, ∑ x ∈ Finset.range g.width, g.pix x y

/-- The mean used by `ImageEnhance.Contrast`:
`int(ImageStat.Stat(image.convert("L")).mean[0] + 0.5)`, i.e. the pixel
average rounded to the nearest integer (halves rounding up).  For a sum `s`
over `c` pixels, `int(s/c + 0.5) = (2*s + c) / (2*c)` in integer division;
the float64 division `s/c` is close enough to the rational value that the
two floors agree (they could only differ within `1/c` of a half-integer,
and `s/c` is an exact multiple of `1/c`). -/
def contrastMean (g : GrayImage) : Nat :=
  (2 * graySum g + g.width * g.height) / (2 * (g.width * g.height))

/-- One pixel of `Image.blend(degenerate, image, 2.0)` (Pillow Blend.c,
amplification branch): `temp = in1 + alpha * (in2 - in1)` with `in1` the
degenerate (mean) value `m` and `in2` the original value `v`; `temp <= 0`
yields 0, `temp >= 255` yields 255, otherwise `temp` truncated.  With
`alpha = 2.0` and integer inputs the float expression is an exact integer,
so Int arithmetic is faithful. -/
def blendPix (m v : Nat) : Nat :=
  let temp : Int := (m : Int) + 2 * ((v : Int) - (m : Int))
  if temp ≤ 0 then 0 else if 255 ≤ temp then 255 else temp.toNat

/-- Stage 2 of `preprocess_image`:
`ImageEnhance.Contrast(gray).enhance(2.0)`. -/
def enhanceContrast (g : GrayImage) : GrayImage :=
  ⟨g.width, g.height, fun x y => blendPix (contrastMean g) (g.pix x y)⟩

/-- Sixteen times the convolution response of Pillow `ImageFilter.SHARPEN`
at `(x, y)`: the built-in filter has kernel `(-2,...,-2, 32, -2,...,-2)`
with divisor 16, so the float response is `(32*center - 2*Σ(8 neighbors))/16`;
this definition keeps the numerator, an exact integer. -/
def conv3 (g : GrayImage) (x y : Nat) : Int :=
  32 * (g.pix x y : Int) -
    2 * ((g.pix (x-1) (y-1) : Int) + g.pix x (y-1) + g.pix (x+1) (y-1) +
         g.pix (x-1) y + g.pix (x+1) y +
         g.pix (x-1) (y+1) + g.pix x (y+1) + g.pix (x+1) (y+1))

/-- Pillow Filter.c `clip8` applied to the response `s / 16` (the argument
`s` here is 16 times the float value, which is an exact multiple of 1/16
representable in float32): values at most 0 clip to 0, values at least 255
clip to 255, and the rest truncate to an integer. -/
def clip8 (s : Int) : Nat :=
  if s ≤ 0 then 0 else if 255 * 16 ≤ s then 255 else (s / 16).toNat

/-- Stage 3 of `preprocess_image`: `enhanced.filter(ImageFilter.SHARPEN)`.
Pillow `ImagingFilter` returns a plain copy when the image is smaller than
the 3x3 kernel; otherwise `ImagingFilter3x3` copies the four border rows and
columns from the input and convolves every interior pixel. -/
def sharpen (g : GrayImage) : GrayImage :=
  ⟨g.width, g.height, fun x y =>
    if g.width < 3 ∨ g.height < 3 then g.pix x y
    else if x = 0 ∨ x = g.width - 1 ∨ y = 0 ∨ y = g.height - 1 then g.pix x y
    else clip8 (conv3 g x y)⟩

/-- Stage 4 of `preprocess_image`:
`threshold = np.mean(img_array); binary = (img_array > threshold) * 255`.
The elementwise comparison `v > s/c` for an integer `v`, integer sum `s` and
pixel count `c` is expressed integrally as `s < v * c`, which agrees with the
float64 comparison because a float64 mean of `c ≤ 2^26` byte values differs
from the rational value by far less than `1/c` (and `c = 0` makes both
comparisons false: numpy yields nan). -/
def binarize (g : GrayImage) : GrayImage :=
  ⟨g.width, g.height, fun x y =>
    if graySum g < g.pix x y * (g.width * g.height) then 255 else 0⟩

/-- `MainWindow.preprocess_image` (src/snipping_tool.py lines 295-314):
grayscale, contrast enhancement by 2.0, SHARPEN filter, global-mean
threshold. -/
def preprocess_image (img : RGBImage) : GrayImage :=
  binarize (sharpen (enhanceContrast (toGray img)))

/-- A concrete 1x1 color image used to instantiate hypotheses. -/
def img1 : RGBImage := ⟨1, 1, fun _ _ => (10, 20, 30)⟩

/-- C1: for every input image of positive width and height, preprocess_image
returns an image with exactly the same width and height as its input, and
every pixel of the returned image has value 0 or value 255. -/
theorem preprocess_image_dims_binary (img : RGBImage)
    (hw : 0 < img.width) (hh : 0 < img.height) :
    (preprocess_image img).width = img.width ∧
    (preprocess_image img).height = img.height ∧
    ∀ x, x < img.width → ∀ y, y < img.height →
      (preprocess_image img).pix x y = 0 ∨ (preprocess_image img).pix x y = 255 := by
  refine ⟨rfl, rfl, ?_⟩
  intro x _ y _
  simp only [preprocess_image, binarize]
  split <;> simp

/-- Exact rational mean intensity of a gray image (the value `np.mean` and
`ImageStat` approximate in float64). -/
def meanQ (g : GrayImage) : ℚ :=
  (graySum g : ℚ) / ((g.width * g.height : Nat) : ℚ)

/-- C2: in the final binarization stage of preprocess_image the threshold is
the global mean intensity of the sharpened image; a pixel maps to 255 exactly
when its value is strictly greater than that mean and to 0 otherwise, so a
pixel equal to the mean maps to 0. -/
theorem preprocess_image_threshold (img : RGBImage)
    (hpos : 0 < img.width * img.height)
    (x y : Nat) (hx : x < img.width) (hy : y < img.height) :
    ((preprocess_image img).pix x y = 255 ↔
      meanQ (sharpen (enhanceContrast (toGray img))) <
        ((sharpen (enhanceContrast (toGray img))).pix x y : ℚ)) ∧
    ((preprocess_image img).pix x y = 0 ↔
      ((sharpen (enhanceContrast (toGray img))).pix x y : ℚ) ≤
        meanQ (sharpen (enhanceContrast (toGray img)))) := by
  set s := sharpen (enhanceContrast (toGray img)) with hs
  have hdw : s.width = img.width := rfl
  have hdh : s.height = img.height := rfl
  have hc : (0 : ℚ) < ((img.width * img.height : Nat) : ℚ) := by exact_mod_cast hpos
  have hiff : graySum s < s.pix x y * (img.width * img.height) ↔
      meanQ s < (s.pix x y : ℚ) := by
    unfold meanQ
    rw [hdw, hdh, div_lt_iff hc]
    constructor <;> intro h <;> exact_mod_cast h
  have hpix : (preprocess_image img).pix x y =
      if graySum s < s.pix x y * (img.width * img.height) then 255 else 0 := by
    simp only [preprocess_image, binarize, ← hs, hdw, hdh]
  rw [hpix]
  by_cases hb : graySum s < s.pix x y * (img.width * img.height)
  · rw [if_pos hb]
    exact ⟨iff_of_true rfl (hiff.mp hb),
           iff_of_false (by omega) (not_le.mpr (hiff.mp hb))⟩
  · rw [if_neg hb]
    have h2 : (s.pix x y : ℚ) ≤ meanQ s := not_lt.mp (fun hlt => hb (hiff.mpr hlt))
    exact ⟨iff_of_false (by omega) (not_lt.mpr h2), iff_of_true rfl h2⟩

/-- Witness for C2 at the concrete image `img1` and pixel (0, 0). -/
theorem preprocess_image_threshold_w :
    0 < img1.width * img1.height ∧ 0 < img1.width ∧ 0 < img1.height ∧
    (((preprocess_image img1).pix 0 0 = 255 ↔
      meanQ (sharpen (enhanceContrast (toGray img1))) <
        ((sharpen (enhanceContrast (toGray img1))).pix 0 0 : ℚ)) ∧
     ((preprocess_image img1).pix 0 0 = 0 ↔
      ((sharpen (enhanceContrast (toGray img1))).pix 0 0 : ℚ) ≤
        meanQ (sharpen (enhanceContrast (toGray img1))))) :=
  ⟨by decide, by decide, by decide,
   preprocess_image_threshold img1 (by decide) 0 0 (by decide) (by decide)⟩

/-- Modelled from the spec (wording of claim C3): the response of the
cross-shaped 3x3 kernel with center weight 5, weight -1 on the four cardinal
neighbors and weight 0 on the diagonals, clipped to the byte range the same
way the code clips its own kernel response. -/
def crossSharpenPix (g : GrayImage) (x y : Nat) : Nat :=
  let t : Int := 5 * (g.pix x y : Int) -
    ((g.pix x (y-1) : Int) + g.pix x (y+1) + g.pix (x-1) y + g.pix (x+1) y)
  if t ≤ 0 then 0 else if 255 ≤ t then 255 else t.toNat

/-- A concrete 3x3 color image: black at the corner (0,0), gray 100
elsewhere. -/
def ex3 : RGBImage :=
  ⟨3, 3, fun x y => if x = 0 ∧ y = 0 then (0, 0, 0) else (100, 100, 100)⟩

/-- Counterexample to C3: at the interior pixel (1,1) of the
contrast-enhanced image derived from `ex3` (which has value 0 at the corner
and 111 elsewhere), the sharpening stage of the code produces 124 — the
Pillow SHARPEN kernel weighs the diagonal neighbors — while the cross-shaped
kernel claimed by the spec produces 111. -/
theorem sharpen_not_cross_kernel :
    (sharpen (enhanceContrast (toGray ex3))).pix 1 1 = 124 ∧
    crossSharpenPix (enhanceContrast (toGray ex3)) 1 1 = 111 ∧
    (sharpen (enhanceContrast (toGray ex3))).pix 1 1 ≠
      crossSharpenPix (enhanceContrast (toGray ex3)) 1 1 := by
  decide

/-- C3 amended: the sharpening stage applies, to each interior pixel, the
Pillow SHARPEN kernel [[-2,-2,-2],[-2,32,-2],[-2,-2,-2]] with divisor 16
(center weight 2, weight -1/8 on all eight neighbors, diagonals included),
truncating the response to an integer and clamping it to [0, 255]; border
pixels are copied unfiltered and the output has the same size as the
input. -/
theorem sharpen_interior_kernel (g : GrayImage) (x y : Nat)
    (hx1 : 0 < x) (hx2 : x + 1 < g.width) (hy1 : 0 < y) (hy2 : y + 1 < g.height) :
    (sharpen g).width = g.width ∧ (sharpen g).height = g.height ∧
    (sharpen g).pix x y =
      clip8 (32 * (g.pix x y : Int) -
        2 * ((g.pix (x-1) (y-1) : Int) + g.pix x (y-1) + g.pix (x+1) (y-1) +
             g.pix (x-1) y + g.pix (x+1) y +
             g.pix (x-1) (y+1) + g.pix x (y+1) + g.pix (x+1) (y+1))) := by
  refine ⟨rfl, rfl, ?_⟩
  simp only [sharpen]
  rw [if_neg (by omega), if_neg (by omega)]
  rfl

/-- Witness for the amended C3 at the interior pixel (1,1) of the grayscale
image of `ex3`. -/
theorem sharpen_interior_kernel_w :
    0 < 1 ∧ 1 + 1 < (toGray ex3).width ∧ 0 < 1 ∧ 1 + 1 < (toGray ex3).height ∧
    ((sharpen (toGray ex3)).width = (toGray ex3).width ∧
     (sharpen (toGray ex3)).height = (toGray ex3).height ∧
     (sharpen (toGray ex3)).pix 1 1 =
      clip8 (32 * ((toGray ex3).pix 1 1 : Int) -
        2 * (((toGray ex3).pix 0 0 : Int) + (toGray ex3).pix 1 0 + (toGray ex3).pix 2 0 +
             (toGray ex3).pix 0 1 + (toGray ex3).pix 2 1 +
             (toGray ex3).pix 0 2 + (toGray ex3).pix 1 2 + (toGray ex3).pix 2 2))) :=
  ⟨by decide, by decide, by decide, by decide,
   sharpen_interior_kernel (toGray ex3) 1 1 (by decide) (by decide) (by decide) (by decide)⟩

/-- C4: the contrast-enhancement stage maps every luminance value v of the
grayscale image to clamp(mean + (v - mean) * 2, 0, 255), where mean is the
mean luminance of the grayscale image rounded to the nearest integer of the
byte intensity scale (halves rounding up), exactly as `ImageEnhance.Contrast`
computes it. -/
theorem enhance_contrast_formula (img : RGBImage)
    (hpos : 0 < img.width * img.height)
    (x y : Nat) (hx : x < img.width) (hy : y < img.height) :
    contrastMean (toGray img) = Nat.floor (meanQ (toGray img) + 1 / 2) ∧
    ((enhanceContrast (toGray img)).pix x y : Int) =
      max 0 (min 255 ((contrastMean (toGray img) : Int) +
        (((toGray img).pix x y : Int) - (contrastMean (toGray img) : Int)) * 2)) := by
  constructor
  · have hdw : (toGray img).width = img.width := rfl
    have hdh : (toGray img).height = img.height := rfl
    have hcq : ((img.width * img.height : Nat) : ℚ) ≠ 0 := by
      exact_mod_cast hpos.ne'
    have e1 : meanQ (toGray img) + 1 / 2 =
        ((2 * graySum (toGray img) + img.width * img.height : ℕ) : ℚ) /
          ((2 * (img.width * img.height) : ℕ) : ℚ) := by
      unfold meanQ
      rw [hdw, hdh]
      set c := img.width * img.height with hc2
      push_cast
      field_simp
      ring
    rw [e1, Nat.floor_div_eq_div]
    rfl
  · show (blendPix (contrastMean (toGray img)) ((toGray img).pix x y) : Int) = _
    simp only [blendPix]
    split_ifs with h1 h2 <;> omega

/-- Witness for C4 at the concrete image `img1` and pixel (0, 0). -/
theorem enhance_contrast_formula_w :
    0 < img1.width * img1.height ∧ 0 < img1.width ∧ 0 < img1.height ∧
    (contrastMean (toGray img1) = Nat.floor (meanQ (toGray img1) + 1 / 2) ∧
     ((enhanceContrast (toGray img1)).pix 0 0 : Int) =
      max 0 (min 255 ((contrastMean (toGray img1) : Int) +
        (((toGray img1).pix 0 0 : Int) - (contrastMean (toGray img1) : Int)) * 2))) :=
  ⟨by decide, by decide, by decide,
   enhance_contrast_formula img1 (by decide) 0 0 (by decide) (by decide)⟩

/-- The in-bounds pixel sum of an image whose in-bounds pixels are all `u`. -/
theorem graySum_of_const (g : GrayImage) (u : Nat)
    (hc : ∀ x, x < g.width → ∀ y, y < g.height → g.pix x y = u) :
    graySum g = g.width * g.height * u := by
  unfold graySum
  calc (∑ y ∈ Finset.range g.height, ∑ x ∈ Finset.range g.width, g.pix x y)
      = ∑ _y ∈ Finset.range g.height, ∑ _x ∈ Finset.range g.width, u := by
        refine Finset.sum_congr rfl (fun y hy => Finset.sum_congr rfl (fun x hx => ?_))
        exact hc x (Finset.mem_range.mp hx) y (Finset.mem_range.mp hy)
    _ = g.width * g.height * u := by
        simp only [Finset.sum_const, Finset.card_range, smul_eq_mul]
        ring

/-- The rounded mean of a constant image is that constant. -/
theorem contrastMean_of_const (g : GrayImage) (u : Nat)
    (hpos : 0 < g.width * g.height)
    (hc : ∀ x, x < g.width → ∀ y, y < g.height → g.pix x y = u) :
    contrastMean g = u := by
  unfold contrastMean
  rw [graySum_of_const g u hc]
  have h1 : 2 * (g.width * g.height * u) + g.width * g.height
      = g.width * g.height + 2 * (g.width * g.height) * u := by ring
  rw [h1, Nat.add_mul_div_left _ _ (by omega : 0 < 2 * (g.width * g.height)),
      Nat.div_eq_of_lt (by omega), Nat.zero_add]

/-- Blending a value with itself clamps it to the byte range. -/
theorem blendPix_self (v : Nat) : blendPix v v = min v 255 := by
  simp only [blendPix]
  split_ifs <;> omega

/-- The SHARPEN clip applied to sixteen times a byte value is the identity. -/
theorem clip8_sixteen (u : Nat) (hu : u ≤ 255) : clip8 (16 * (u : Int)) = u := by
  unfold clip8
  split_ifs <;> omega

/-- Sharpening a globally constant byte-valued image leaves every pixel
unchanged. -/
theorem sharpen_pix_of_const (g : GrayImage) (u : Nat) (hu : u ≤ 255)
    (hc : ∀ x y, g.pix x y = u) (x y : Nat) :
    (sharpen g).pix x y = u := by
  simp only [sharpen]
  split_ifs with h1 h2
  · exact hc x y
  · exact hc x y
  · have e : conv3 g x y = 16 * (u : Int) := by
      simp only [conv3, hc]
      ring
    rw [e, clip8_sixteen u hu]

/-- Binarizing an image whose in-bounds pixels are all equal yields 0 at
every in-bounds pixel: no pixel is strictly greater than the mean. -/
theorem binarize_pix_of_const (g : GrayImage) (u : Nat)
    (hc : ∀ x, x < g.width → ∀ y, y < g.height → g.pix x y = u)
    (x y : Nat) (hx : x < g.width) (hy : y < g.height) :
    (binarize g).pix x y = 0 := by
  simp only [binarize]
  rw [hc x hx y hy, graySum_of_const g u hc]
  have h1 : u * (g.width * g.height) = g.width * g.height * u := by ring
  rw [h1, if_neg (lt_irrefl _)]

/-- C5: for every uniform-color input image, preprocess_image returns an
image in which every in-bounds pixel has the same value, that value being 0
or 255; no stage introduces differing pixels.  (The pipeline in fact always
produces the all-0 image from a flat field, because no pixel is strictly
greater than the mean.) -/
theorem preprocess_image_uniform (w h r g b : Nat) (hw : 0 < w) (hh : 0 < h) :
    ∃ c, (c = 0 ∨ c = 255) ∧
      ∀ x, x < w → ∀ y, y < h →
        (preprocess_image ⟨w, h, fun _ _ => (r, g, b)⟩).pix x y = c := by
  refine ⟨0, Or.inl rfl, ?_⟩
  intro x hx y hy
  set img : RGBImage := ⟨w, h, fun _ _ => (r, g, b)⟩ with himg
  set v := lum (r, g, b) with hv
  have hg : ∀ x' y', (toGray img).pix x' y' = v := fun _ _ => rfl
  have hgw : (toGray img).width = w := rfl
  have hgh : (toGray img).height = h := rfl
  have hpos : 0 < (toGray img).width * (toGray img).height := by
    rw [hgw, hgh]; exact Nat.mul_pos hw hh
  have hm : contrastMean (toGray img) = v :=
    contrastMean_of_const _ v hpos (fun x' _ y' _ => hg x' y')
  have he : ∀ x' y', (enhanceContrast (toGray img)).pix x' y' = min v 255 := by
    intro x' y'
    show blendPix (contrastMean (toGray img)) ((toGray img).pix x' y') = min v 255
    rw [hm, hg x' y', blendPix_self]
  have hs : ∀ x' y', (sharpen (enhanceContrast (toGray img))).pix x' y' = min v 255 :=
    fun x' y' => sharpen_pix_of_const _ _ (min_le_right v 255) he x' y'
  exact binarize_pix_of_const _ (min v 255) (fun x' _ y' _ => hs x' y') x y hx hy

/-- Witness for C5 at a concrete 2x3 uniform image. -/
theorem preprocess_image_uniform_w :
    0 < 2 ∧ 0 < 3 ∧
    (∃ c, (c = 0 ∨ c = 255) ∧
      ∀ x, x < 2 → ∀ y, y < 3 →
        (preprocess_image ⟨2, 3, fun _ _ => (7, 8, 9)⟩).pix x y = c) :=
  ⟨by decide, by decide, preprocess_image_uniform 2 3 7 8 9 (by decide) (by decide)⟩

/-- Witness for C1 at the concrete image `img1`. -/
theorem preprocess_image_dims_binary_w :
    0 < img1.width ∧ 0 < img1.height ∧
    ((preprocess_image img1).width = img1.width ∧
     (preprocess_image img1).height = img1.height ∧
     ∀ x, x < img1.width → ∀ y, y < img1.height →
       (preprocess_image img1).pix x y = 0 ∨ (preprocess_image img1).pix x y = 255) :=
  ⟨by decide, by decide,
   preprocess_image_dims_binary img1 (by decide) (by decide)⟩

/-- A point with integer coordinates, as `QPoint`. -/
structure QPointM where
  x : Int
  y : Int

/-- A rectangle stored Qt-style by its two corner coordinates; the historical
Qt convention makes `width = x2 - x1 + 1` and `height = y2 - y1 + 1`. -/
structure QRectM where
  x1 : Int
  y1 : Int
  x2 : Int
  y2 : Int

/-- `QRect(topLeft, bottomRight)`: stores the coordinates of both corners. -/
def QRectM.ofPoints (p q : QPointM) : QRectM := ⟨p.x, p.y, q.x, q.y⟩

def QRectM.width (r : QRectM) : Int := r.x2 - r.x1 + 1

def QRectM.height (r : QRectM) : Int := r.y2 - r.y1 + 1

/-- `QRect::normalized()` from Qt: each coordinate pair is swapped exactly
when the corresponding extent is negative (`x2 < x1 - 1`). -/
def QRectM.normalized (r : QRectM) : QRectM :=
  ⟨if r.x2 < r.x1 - 1 then r.x2 else r.x1,
   if r.y2 < r.y1 - 1 then r.y2 else r.y1,
   if r.x2 < r.x1 - 1 then r.x1 else r.x2,
   if r.y2 < r.y1 - 1 then r.y1 else r.y2⟩

/-- `SnippingWidget.mouseReleaseEvent` (src/snipping_tool.py lines 69-82),
reduced to its selection decision: the normalized rectangle spanned by the
press point and the release point is passed to `capture_region` exactly when
both its width and its height exceed 10, and is discarded otherwise.  A
`some` result is the `capture_region(rect)` invocation (the only path by
which the captured image reaches `process_capture` and later the
preprocessing and OCR stages); `none` means no downstream call is made. -/
def mouseReleaseEvent (pBegin pEnd : QPointM) : Option QRectM :=
  let rect := (QRectM.ofPoints pBegin pEnd).normalized
  if 10 < rect.width ∧ 10 < rect.height then some rect else none

/-- C6: a selection whose normalized rectangle has width at most 10 or
height at most 10 is discarded on mouse release: capture_region is never
called, hence neither the preprocessor nor any OCR backend ever runs for
that selection. -/
theorem mouseReleaseEvent_small_discarded (pBegin pEnd : QPointM)
    (h : ((QRectM.ofPoints pBegin pEnd).normalized).width ≤ 10 ∨
         ((QRectM.ofPoints pBegin pEnd).normalized).height ≤ 10) :
    mouseReleaseEvent pBegin pEnd = none := by
  unfold mouseReleaseEvent
  rw [if_neg]
  rintro ⟨hw, hh⟩
  rcases h with h | h <;> omega

/-- Witness for C6: a click dragged only 5 pixels horizontally. -/
theorem mouseReleaseEvent_small_discarded_w :
    (((QRectM.ofPoints ⟨0, 0⟩ ⟨5, 40⟩).normalized).width ≤ 10 ∨
     ((QRectM.ofPoints ⟨0, 0⟩ ⟨5, 40⟩).normalized).height ≤ 10) ∧
    mouseReleaseEvent ⟨0, 0⟩ ⟨5, 40⟩ = none :=
  ⟨Or.inl (by decide), mouseReleaseEvent_small_discarded ⟨0, 0⟩ ⟨5, 40⟩ (Or.inl (by decide))⟩

/-- Python substring membership (`needle in hay`) on character lists. -/
def charsContain (needle : List Char) : List Char → Bool
  | [] => needle.isEmpty
  | c :: rest => needle.isPrefixOf (c :: rest) || charsContain needle rest

/-- `needle in hay` for strings. -/
def strContainsSub (hay needle : String) : Bool :=
  charsContain needle.data hay.data

/-- A call made to an external text-recognition collaborator during one run
of `extract_text`.  `network` would be a cloud request; the code never
emits it. -/
inductive BackendCall where
  | tesseract (img : GrayImage)
  | easyocr (img : GrayImage)
  | network

/-- The state held by `MainWindow` that `extract_text` reads or writes:
the current captured image, the `extracted_text` attribute (absent until
the first successful extraction), the text output label, and the enabled
flags of the copy and extract buttons. -/
structure ShellState where
  captured_image : Option RGBImage
  extracted_text : Option String
  text_label : String
  copy_enabled : Bool
  extract_enabled : Bool

/-- The engine dispatch of `extract_text` (src/snipping_tool.py lines
329-343): Tesseract and EasyOCR forward the processed image to their
backend (modelled as an oracle returning either recognized text or the
description of a raised exception); a missing EasyOCR dependency produces
a fixed installation hint without calling anything; every other engine
string - the combo box only offers the Cloud API item besides the two
above - produces the fixed stub text without calling anything. -/
def ocr_dispatch (tess easy : GrayImage → Except String String)
    (easyAvailable : Bool) (engine : String) (processed : GrayImage) :
    Except String String × List BackendCall :=
  if strContainsSub engine "Tesseract" then
    (tess processed, [BackendCall.tesseract processed])
  else if strContainsSub engine "EasyOCR" then
    if easyAvailable then
      (easy processed, [BackendCall.easyocr processed])
    else
      (Except.ok "EasyOCR not installed. Please install with: pip install easyocr", [])
  else
    (Except.ok "Cloud API not implemented in this demo", [])

/-- Python `text.strip()`: drop leading and trailing whitespace.  (Defined
on the character list by two `dropWhile` passes so that it reduces inside
the kernel.) -/
def pyStrip (t : String) : String :=
  ⟨(((t.data.dropWhile Char.isWhitespace).reverse.dropWhile Char.isWhitespace).reverse)⟩

/-- `MainWindow.extract_text` (src/snipping_tool.py lines 316-355) as a
state transformer, also returning the list of backend calls performed.
With no captured image it returns at once.  Otherwise it preprocesses the
image, dispatches to the selected engine, and on a text result either
displays it, stores it and enables copy (`if text.strip():`, i.e. nonempty
after stripping whitespace) or displays the fixed no-text message and
disables copy; a raised backend error is caught and displayed (the warning
dialog has no state besides the label text).  The function being total is
the image of the catch-all except handler: no path crashes. -/
def extract_text (tess easy : GrayImage → Except String String)
    (easyAvailable : Bool) (engine : String) (st : ShellState) :
    ShellState × List BackendCall :=
  match st.captured_image with
  | none => (st, [])
  | some img =>
    let st1 := { st with text_label := "Processing... Please wait." }
    let processed := preprocess_image img
    let rc := ocr_dispatch tess easy easyAvailable engine processed
    match rc.1 with
    | Except.ok text =>
      if pyStrip text ≠ "" then
        ({ st1 with text_label := text, extracted_text := some text,
                    copy_enabled := true }, rc.2)
      else
        ({ st1 with text_label := "No text detected in image",
                    copy_enabled := false }, rc.2)
    | Except.error e =>
      ({ st1 with text_label := "Error during OCR: " ++ e }, rc.2)

/-- C7: with the Cloud API engine selected, extract_text produces the fixed
not-implemented stub message as the displayed and stored result text and
performs no backend call and no network call (the call trace is empty). -/
theorem extract_text_cloud_api (tess easy : GrayImage → Except String String)
    (easyAvailable : Bool) (st : ShellState) (img : RGBImage)
    (h : st.captured_image = some img) :
    extract_text tess easy easyAvailable "Cloud API (Premium - Not Implemented)" st =
      ({ st with text_label := "Cloud API not implemented in this demo",
                 extracted_text := some "Cloud API not implemented in this demo",
                 copy_enabled := true }, []) := by
  unfold extract_text
  rw [h]
  rfl

/-- The shell state right after a successful extraction of the text HELLO
from the captured image `img1`. -/
def stA : ShellState := ⟨some img1, some "HELLO", "HELLO", true, true⟩

/-- The empty shell state at application start. -/
def stNone : ShellState := ⟨none, none, "Extracted text will appear here", false, false⟩

/-- A Tesseract oracle that recognizes only whitespace. -/
def tessBlank : GrayImage → Except String String := fun _ => Except.ok "   "

/-- A Tesseract oracle whose call raises an exception. -/
def tessBoom : GrayImage → Except String String := fun _ => Except.error "tesseract failed"

/-- An EasyOCR oracle; never reached in the runs below. -/
def easy0 : GrayImage → Except String String := fun _ => Except.error "unused"

/-- Witness for C7 at the concrete state `stA`. -/
theorem extract_text_cloud_api_w :
    stA.captured_image = some img1 ∧
    extract_text tessBoom easy0 false "Cloud API (Premium - Not Implemented)" stA =
      ({ stA with text_label := "Cloud API not implemented in this demo",
                  extracted_text := some "Cloud API not implemented in this demo",
                  copy_enabled := true }, []) :=
  ⟨rfl, extract_text_cloud_api tessBoom easy0 false stA img1 rfl⟩

/-- The state after a whitespace-only extraction run on `stA`: the old text
HELLO is still stored but the copy action is now disabled. -/
def stB : ShellState := (extract_text tessBlank easy0 false "Tesseract (Fast)" stA).1

/-- The state after a further extraction run on `stB` whose backend raises. -/
def stC : ShellState := (extract_text tessBoom easy0 false "Tesseract (Fast)" stB).1

/-- Counterexample to C8: the state `stB` is reached from a successful
extraction (state `stA`) by one run whose OCR succeeds with whitespace-only
text, which disables copy while keeping the stored text HELLO; a further run
that fails with an OCR error then ends with the copy action disabled even
though previously extracted text still exists, contradicting the claim that
after a failed extraction copy is disabled only if no prior text exists. -/
theorem extract_text_error_copy_stays_disabled :
    stB.extracted_text = some "HELLO" ∧ stB.copy_enabled = false ∧
    stC.text_label = "Error during OCR: tesseract failed" ∧
    stC.extracted_text = some "HELLO" ∧ stC.copy_enabled = false := by
  decide

/-- C8 amended: when OCR extraction fails with an error, the stored current
image, any previously stored extracted text, and the enabled state of the
copy and extract actions are all left exactly as they were (so copy remains
enabled if it was enabled, and ends up disabled only if it was already
disabled before the attempt); the exception is caught and reported in the
text label, and the process does not crash. -/
theorem extract_text_error_preserves_state (tess easy : GrayImage → Except String String)
    (easyAvailable : Bool) (engine : String) (st : ShellState) (img : RGBImage) (e : String)
    (h : st.captured_image = some img)
    (herr : (ocr_dispatch tess easy easyAvailable engine (preprocess_image img)).1 =
      Except.error e) :
    (extract_text tess easy easyAvailable engine st).1.captured_image = st.captured_image ∧
    (extract_text tess easy easyAvailable engine st).1.extracted_text = st.extracted_text ∧
    (extract_text tess easy easyAvailable engine st).1.copy_enabled = st.copy_enabled ∧
    (extract_text tess easy easyAvailable engine st).1.extract_enabled = st.extract_enabled ∧
    (extract_text tess easy easyAvailable engine st).1.text_label = "Error during OCR: " ++ e := by
  simp only [extract_text, h, herr]
  refine ⟨?_, ?_, ?_, ?_, ?_⟩ <;> trivial

/-- Witness for the amended C8 at the concrete state `stA` with an erroring
Tesseract oracle. -/
theorem extract_text_error_preserves_state_w :
    stA.captured_image = some img1 ∧
    (ocr_dispatch tessBoom easy0 false "Tesseract (Fast)" (preprocess_image img1)).1 =
      Except.error "tesseract failed" ∧
    ((extract_text tessBoom easy0 false "Tesseract (Fast)" stA).1.captured_image =
       stA.captured_image ∧
     (extract_text tessBoom easy0 false "Tesseract (Fast)" stA).1.extracted_text =
       stA.extracted_text ∧
     (extract_text tessBoom easy0 false "Tesseract (Fast)" stA).1.copy_enabled =
       stA.copy_enabled ∧
     (extract_text tessBoom easy0 false "Tesseract (Fast)" stA).1.extract_enabled =
       stA.extract_enabled ∧
     (extract_text tessBoom easy0 false "Tesseract (Fast)" stA).1.text_label =
       "Error during OCR: " ++ "tesseract failed") :=
  ⟨rfl, rfl,
   extract_text_error_preserves_state tessBoom easy0 false "Tesseract (Fast)" stA img1
     "tesseract failed" rfl rfl⟩

/-- C9: with no captured image, extract_text returns immediately and changes
nothing: the whole state - displayed text, stored text, stored image and
every button flag - is returned unchanged and no backend is called. -/
theorem extract_text_no_image (tess easy : GrayImage → Except String String)
    (easyAvailable : Bool) (engine : String) (st : ShellState)
    (h : st.captured_image = none) :
    extract_text tess easy easyAvailable engine st = (st, []) := by
  unfold extract_text
  rw [h]

/-- Witness for C9 at the initial shell state. -/
theorem extract_text_no_image_w :
    stNone.captured_image = none ∧
    extract_text tessBoom easy0 false "Tesseract (Fast)" stNone = (stNone, []) :=
  ⟨rfl, extract_text_no_image tessBoom easy0 false "Tesseract (Fast)" stNone rfl⟩

/-- C10: when OCR succeeds but the text is empty or whitespace-only,
extract_text displays the fixed no-text message and disables the copy
action while leaving any previously stored extracted text unchanged - after
a prior successful extraction, a no-text extraction disables copy even
though the old text is still stored. -/
theorem extract_text_whitespace_result (tess easy : GrayImage → Except String String)
    (easyAvailable : Bool) (engine : String) (st : ShellState) (img : RGBImage) (t : String)
    (h : st.captured_image = some img)
    (hok : (ocr_dispatch tess easy easyAvailable engine (preprocess_image img)).1 =
      Except.ok t)
    (ht : pyStrip t = "") :
    (extract_text tess easy easyAvailable engine st).1.text_label =
      "No text detected in image" ∧
    (extract_text tess easy easyAvailable engine st).1.copy_enabled = false ∧
    (extract_text tess easy easyAvailable engine st).1.extracted_text = st.extracted_text := by
  simp only [extract_text, h, hok, ht, ne_eq, not_true_eq_false, if_false]
  refine ⟨?_, ?_, ?_⟩ <;> trivial

/-- Witness for C10 at the concrete state `stA` with a whitespace-producing
Tesseract oracle. -/
theorem extract_text_whitespace_result_w :
    stA.captured_image = some img1 ∧
    (ocr_dispatch tessBlank easy0 false "Tesseract (Fast)" (preprocess_image img1)).1 =
      Except.ok "   " ∧
    pyStrip "   " = "" ∧
    ((extract_text tessBlank easy0 false "Tesseract (Fast)" stA).1.text_label =
       "No text detected in image" ∧
     (extract_text tessBlank easy0 false "Tesseract (Fast)" stA).1.copy_enabled = false ∧
     (extract_text tessBlank easy0 false "Tesseract (Fast)" stA).1.extracted_text =
       stA.extracted_text) :=
  ⟨rfl, rfl, by decide,
   extract_text_whitespace_result tessBlank easy0 false "Tesseract (Fast)" stA img1 "   "
     rfl rfl (by decide)⟩
